import Mathlib

/-!
Shallow embedding of the Telegram Wiki Bot core flow (`src/index.ts`):
the pending-message queue, the periodic batcher (`processMessages`),
the classifier response parsing (`analyzeMessages`), the publish
orchestrator (`publishPost`), and the command/response handlers.

The relational store is modelled as explicit lists of rows; SQL
statements become list operations; external calls (the AI model, the
two publishing sinks) are oracles passed in as function arguments whose
`none` result stands for a thrown exception; timestamps are integers
(milliseconds since epoch, as in JavaScript `Date`).
-/

namespace WikiBot

/-- Row of `user_settings` (interface `UserSettings` in the source). -/
structure UserSettingsRow where
  user_id : Int
  auto_publish : Bool
  combine_threshold_minutes : Int
  notion_database_id : Option String
  github_repo : Option String
deriving DecidableEq, Repr

/-- Row of `users`. -/
structure UserRow where
  user_id : Int
  username : Option String
  is_authorized : Bool
deriving DecidableEq, Repr

/-- Row of `monitored_sources` (interface `MonitoredSource`). -/
structure MonitoredSource where
  id : Int
  user_id : Int
  chat_id : Int
  topic_id : Option Int
  is_active : Bool
deriving DecidableEq, Repr

/-- Row of `pending_messages` (interface `PendingMessageRow`).
`timestamp` is in milliseconds since epoch. -/
structure PendingMessageRow where
  id : Int
  source_id : Int
  message_id : Int
  text : Option String
  media_urls : List String
  sender : Option String
  timestamp : Int
  is_processed : Bool
deriving DecidableEq, Repr

/-- The `status` column of `blog_posts`. -/
inductive PostStatus
  | pending
  | publishing
  | published
  | failed
deriving DecidableEq, Repr

/-- Row of `blog_posts` (interface `BlogPostRow`). -/
structure BlogPostRow where
  id : Int
  user_id : Int
  title : String
  content : String
  media_urls : List String
  source_messages : List Int
  notion_page_id : Option String
  github_commit_sha : Option String
  status : PostStatus
  published_at : Option Int
deriving DecidableEq, Repr

/-- The whole relational store. -/
structure Db where
  users : List UserRow
  user_settings : List UserSettingsRow
  monitored_sources : List MonitoredSource
  pending_messages : List PendingMessageRow
  blog_posts : List BlogPostRow
deriving DecidableEq, Repr

/-- The parsed classifier decision (interface `AnalysisResult`). -/
structure AnalysisResult where
  shouldCombine : Bool
  isInformational : Bool
  suggestedTitle : String
  combinedContent : String
deriving DecidableEq, Repr

/-- `getUserSettings`: first `user_settings` row for the user, else the
hard-coded defaults (`auto_publish=false`, threshold 5, no sink config). -/
def defaultSettings (uid : Int) : UserSettingsRow :=
  { user_id := uid
    auto_publish := false
    combine_threshold_minutes := 5
    notion_database_id := none
    github_repo := none }

def getUserSettings (db : Db) (uid : Int) : UserSettingsRow :=
  match db.user_settings.find? (fun s => s.user_id == uid) with
  | some s => s
  | none => defaultSettings uid

/-- `isAuthorized`: `SELECT is_authorized FROM users WHERE user_id = $1`,
true iff a row is found and its flag is true. -/
def isAuthorizedDb (db : Db) (uid : Int) : Bool :=
  match db.users.find? (fun u => u.user_id == uid) with
  | some u => u.is_authorized
  | none => false

/-- Abstraction of `Date.prototype.toISOString` applied to a
millisecond timestamp: an injective rendering of the instant. -/
def toIsoString (t : Int) : String :=
  toString t

/-- The whitespace characters stripped by `String.prototype.trim`
(restricted to the common ASCII ones). -/
def jsWhitespace (c : Char) : Bool :=
  c = ' ' ∨ c = '\t' ∨ c = '\n' ∨ c = '\r'

/-- Model of `String.prototype.trim`: strip leading and trailing
whitespace. -/
def jsTrim (s : String) : String :=
  String.mk (((s.toList.dropWhile jsWhitespace).reverse.dropWhile jsWhitespace).reverse)

/-- Split a character list on a separator character (the behaviour of
`String.prototype.split` with a one-character separator). -/
def splitChar (sep : Char) (l : List Char) : List (List Char) :=
  l.foldr
    (fun c acc =>
      match acc with
      | [] => [[c]]
      | a :: rest => if c = sep then [] :: (a :: rest) else (c :: a) :: rest)
    [[]]

/-- Digits-only decimal reading of a character list (`none` when empty
or containing a non-digit). -/
def parseDigitsNat (l : List Char) : Option Nat :=
  if l.isEmpty then none
  else
    l.foldl
      (fun acc c =>
        acc.bind (fun n => if c.isDigit then some (n * 10 + (c.toNat - 48)) else none))
      (some 0)

/-- The content of one inbound message after the transport-level
extraction in `storePendingMessage`: `text` is `extractMessageText`'s
result (empty string when neither text nor caption is present),
`media_urls` is `extractMediaUrls`'s result, `sender` is
`getSenderName`'s result, `timestamp` is `message.date * 1000`. -/
structure IncomingContent where
  message_id : Int
  text : String
  media_urls : List String
  sender : String
  timestamp : Int
deriving DecidableEq, Repr

/-- Key predicate of the `UNIQUE (source_id, message_id)` constraint. -/
def keyMatches (sourceId messageId : Int) (r : PendingMessageRow) : Bool :=
  r.source_id == sourceId && r.message_id == messageId

/-- `storePendingMessage`: drop the message when it has neither text nor
media; otherwise `INSERT ... ON CONFLICT (source_id, message_id) DO
NOTHING`. `nextId` stands for the `SERIAL` id the insert would assign. -/
def storePendingMessage (table : List PendingMessageRow) (sourceId nextId : Int)
    (c : IncomingContent) : List PendingMessageRow :=
  if c.text = "" ∧ c.media_urls = [] then table
  else if table.any (keyMatches sourceId c.message_id) then table
  else table ++
    [{ id := nextId
       source_id := sourceId
       message_id := c.message_id
       text := if c.text = "" then none else some c.text
       media_urls := c.media_urls
       sender := some c.sender
       timestamp := c.timestamp
       is_processed := false }]

/-- Insertion step of a stable insertion sort on `timestamp`. -/
def insertByTs (m : PendingMessageRow) : List PendingMessageRow → List PendingMessageRow
  | [] => [m]
  | x :: xs => if m.timestamp ≤ x.timestamp then m :: x :: xs else x :: insertByTs m xs

/-- `ORDER BY pm.timestamp ASC`, modelled as an insertion sort. -/
def sortByTs : List PendingMessageRow → List PendingMessageRow
  | [] => []
  | x :: xs => insertByTs x (sortByTs xs)

/-- The batcher's per-owner fetch (`processMessages`):
`SELECT pm.* FROM pending_messages pm JOIN monitored_sources ms ON
pm.source_id = ms.id WHERE ms.user_id = $1 AND pm.is_processed = false
ORDER BY pm.timestamp ASC`. Note: the query does not test
`ms.is_active`. -/
def fetchUnprocessed (db : Db) (uid : Int) : List PendingMessageRow :=
  sortByTs (db.pending_messages.filter (fun pm =>
    !pm.is_processed &&
      db.monitored_sources.any (fun ms => ms.id == pm.source_id && ms.user_id == uid)))

/-- The batcher's window filter: keep rows with
`timestamp >= now - thresholdMinutes minutes`
(`timeThreshold = new Date(Date.now() - minutes * 60 * 1000)` and
`rows.filter(m => toDate(m.timestamp) >= timeThreshold)`). -/
def recentFilter (rows : List PendingMessageRow) (nowMs thresholdMinutes : Int) :
    List PendingMessageRow :=
  rows.filter (fun m => nowMs - thresholdMinutes * 60 * 1000 ≤ m.timestamp)

/-- `UPDATE pending_messages SET is_processed = true WHERE id = ANY($1)`. -/
def markProcessed (db : Db) (ids : List Int) : Db :=
  { db with
    pending_messages := db.pending_messages.map (fun m =>
      if m.id ∈ ids then { m with is_processed := true } else m) }

/-- The two publishing sinks: Notion (`publishToNotion`) and GitHub
(`publishToGitHub`). -/
inductive Sink
  | notion
  | github
deriving DecidableEq, Repr

/-- One invocation of a sink's `createContent` operation, as observed
at the boundary. -/
structure SinkCall where
  sink : Sink
  title : String
  content : String
  media_urls : List String
deriving DecidableEq, Repr

/-- A sink oracle: given the configuration string (Notion database id or
GitHub `owner/repo`), title, content and media URLs, returns the
external id, or `none` when the call throws. -/
def SinkPub := String → String → String → List String → Option String

/-- `UPDATE blog_posts SET status = $1 WHERE id = $2` — note: no
`user_id` filter anywhere this statement is issued in `publishPost`. -/
def setPostStatus (db : Db) (postId : Int) (st : PostStatus) : Db :=
  { db with
    blog_posts := db.blog_posts.map (fun p =>
      if p.id == postId then { p with status := st } else p) }

/-- The success update of `publishPost`: `SET status = 'published',
notion_page_id = $1, github_commit_sha = $2, published_at = NOW()
WHERE id = $3`. A `none` id is the SQL `NULL` bound for an
unconfigured sink, so a previously recorded id is overwritten. -/
def finalizePost (db : Db) (postId : Int) (notionId githubSha : Option String)
    (nowMs : Int) : Db :=
  { db with
    blog_posts := db.blog_posts.map (fun p =>
      if p.id == postId then
        { p with
          status := PostStatus.published
          notion_page_id := notionId
          github_commit_sha := githubSha
          published_at := some nowMs }
      else p) }

/-- One conditional sink step of `publishPost`
(`settings.X ? await publishToX(...) : null`): when the sink is
configured the call is attempted (and recorded in the trace); `.error`
stands for the thrown exception, `.ok none` for the `null` of an
unconfigured sink. -/
def runSink (sk : Sink) (cfg : Option String) (pub : SinkPub) (post : BlogPostRow) :
    Except Unit (Option String) × List SinkCall :=
  match cfg with
  | none => (Except.ok none, [])
  | some c =>
    (match pub c post.title post.content post.media_urls with
      | none => Except.error ()
      | some i => Except.ok (some i),
     [{ sink := sk, title := post.title, content := post.content,
        media_urls := post.media_urls }])

/-- `publishPost(postId, userId)`: unconditionally set the status to
`publishing`, load the post by `(id, user_id)` (returning when absent),
then call Notion and GitHub in order when configured; any sink throw is
caught and the status set to `failed`; on success record both ids and
`published_at`. Returns the new store and the trace of sink calls. -/
def publishPost (notionPub githubPub : SinkPub) (nowMs : Int) (db : Db)
    (postId uid : Int) : Db × List SinkCall :=
  let db1 := setPostStatus db postId PostStatus.publishing
  match db1.blog_posts.find? (fun p => p.id == postId && p.user_id == uid) with
  | none => (db1, [])
  | some post =>
    let settings := getUserSettings db1 uid
    let nres := runSink Sink.notion settings.notion_database_id notionPub post
    match nres.1 with
    | Except.error _ => (setPostStatus db1 postId PostStatus.failed, nres.2)
    | Except.ok notionId =>
      let gres := runSink Sink.github settings.github_repo githubPub post
      match gres.1 with
      | Except.error _ => (setPostStatus db1 postId PostStatus.failed, nres.2 ++ gres.2)
      | Except.ok githubSha =>
        (finalizePost db1 postId notionId githubSha nowMs, nres.2 ++ gres.2)

/-- The batcher's fallback draft body when the classifier returned an
empty `combinedContent`: per message
`**{sender ?? Unknown}** ({iso timestamp}):\n{text ?? ''}`,
joined with blank lines. -/
def fallbackContent (msgs : List PendingMessageRow) : String :=
  String.intercalate "\n\n" (msgs.map (fun m =>
    "**" ++ m.sender.getD "Unknown" ++ "** (" ++ toIsoString m.timestamp ++ "):\n"
      ++ m.text.getD ""))

/-- The `SERIAL` id the `blog_posts` insert would assign. -/
def nextPostId (db : Db) : Int :=
  1 + db.blog_posts.foldr (fun p m => max p.id m) 0

/-- The classifier oracle: `analyzeMessages` applied to a batch.
`none` stands for a thrown error (no JSON object in the model response,
`JSON.parse` failure, or a transport/quota error). -/
def Analyzer := List PendingMessageRow → Option AnalysisResult

/-- One owner's iteration of the `processMessages` loop: fetch the
owner's unprocessed rows, apply the window filter, classify, then
either mark processed (not informational) or insert a `blog_posts` row,
mark the batch processed, and auto-publish when configured. `none`
means the classifier threw, which propagates to the tick-level catch. -/
def processOwner (analyze : Analyzer) (notionPub githubPub : SinkPub)
    (nowMs : Int) (db : Db) (uid : Int) : Option Db :=
  let settings := getUserSettings db uid
  let rows := fetchUnprocessed db uid
  if rows.isEmpty then some db
  else
    let recent := recentFilter rows nowMs settings.combine_threshold_minutes
    if recent.isEmpty then some db
    else
      match analyze recent with
      | none => none
      | some analysis =>
        if !analysis.isInformational then
          some (markProcessed db (recent.map (fun m => m.id)))
        else
          let mediaUrls := (recent.map (fun m => m.media_urls)).flatten
          let content :=
            if analysis.combinedContent = "" then fallbackContent recent
            else analysis.combinedContent
          let title :=
            if analysis.suggestedTitle = "" then "Telegram Update " ++ toIsoString nowMs
            else analysis.suggestedTitle
          let pid := nextPostId db
          let post : BlogPostRow :=
            { id := pid
              user_id := uid
              title := title
              content := content
              media_urls := mediaUrls
              source_messages := recent.map (fun m => m.id)
              notion_page_id := none
              github_commit_sha := none
              status := if settings.auto_publish then PostStatus.publishing
                        else PostStatus.pending
              published_at := none }
          let db1 : Db := { db with blog_posts := db.blog_posts ++ [post] }
          let db2 := markProcessed db1 (recent.map (fun m => m.id))
          if settings.auto_publish then
            some (publishPost notionPub githubPub nowMs db2 pid uid).1
          else
            some db2

/-- `SELECT DISTINCT user_id FROM user_settings`, keeping first
occurrences in order. -/
def distinctInts (l : List Int) : List Int :=
  l.foldl (fun acc x => if x ∈ acc then acc else acc ++ [x]) []

/-- The owner loop of `processMessages`. The surrounding
`try ... catch` is at tick level, so a classifier throw for one owner
ends the whole loop: the store is returned as it stood when the throw
happened, and the remaining owners are not visited this tick. -/
def processOwnersGo (analyze : Analyzer) (notionPub githubPub : SinkPub)
    (nowMs : Int) : List Int → Db → Db
  | [], db => db
  | uid :: rest, db =>
    match processOwner analyze notionPub githubPub nowMs db uid with
    | none => db
    | some db' => processOwnersGo analyze notionPub githubPub nowMs rest db'

/-- One tick of the periodic batcher (`processMessages`). -/
def processMessagesTick (analyze : Analyzer) (notionPub githubPub : SinkPub)
    (nowMs : Int) (db : Db) : Db :=
  processOwnersGo analyze notionPub githubPub nowMs
    (distinctInts (db.user_settings.map (fun s => s.user_id))) db

/-- The greedy match of the regular expression matching a brace-delimited
span in `analyzeMessages` (`responseText.match` with pattern
`\x7b[\s\S]*\x7d`): the substring from the first `\x7b` to the last
`\x7d`, provided the latter comes after the former. -/
def extractJsonSpan (s : String) : Option String :=
  let cs := s.toList
  match cs.findIdx? (fun c => c = '\x7b') with
  | none => none
  | some i =>
    match cs.reverse.findIdx? (fun c => c = '\x7d') with
    | none => none
    | some r =>
      let j := cs.length - 1 - r
      if i < j then some (String.mk ((cs.drop i).take (j - i + 1))) else none

/-- `Partial<AnalysisResult>`: the shape `JSON.parse(jsonMatch[0])` is
cast to in `analyzeMessages` — every field may be absent. -/
structure PartialAnalysisResult where
  shouldCombine : Option Bool := none
  isInformational : Option Bool := none
  suggestedTitle : Option String := none
  combinedContent : Option String := none
deriving DecidableEq, Repr

/-- The coercions `analyzeMessages` applies to the parsed object:
`Boolean(x)` on an absent field is `false`, and
`x?.trim() ?? ''` on an absent field is the empty string. -/
def coerceAnalysis (p : PartialAnalysisResult) : AnalysisResult :=
  { shouldCombine := p.shouldCombine.getD false
    isInformational := p.isInformational.getD false
    suggestedTitle := jsTrim (p.suggestedTitle.getD "")
    combinedContent := jsTrim (p.combinedContent.getD "") }

/-- The classifier response-format errors `analyzeMessages` can throw
(the spec's `ClassificationFormatError` class). -/
inductive ClassifyError
  | noJsonObject
  | jsonParseError
deriving DecidableEq, Repr

/-- The response-parsing pipeline of `analyzeMessages`, from the model's
free-text response to the returned `AnalysisResult`. `parse` stands for
`JSON.parse` followed by the `Partial<AnalysisResult>` cast, with `none`
when `JSON.parse` throws. -/
def analyzeParse (parse : String → Option PartialAnalysisResult)
    (responseText : String) : Except ClassifyError AnalysisResult :=
  match extractJsonSpan responseText with
  | none => Except.error ClassifyError.noJsonObject
  | some span =>
    match parse span with
    | none => Except.error ClassifyError.jsonParseError
    | some p => Except.ok (coerceAnalysis p)

/-- `upsertUser`: `INSERT INTO users ... ON CONFLICT (user_id) DO
NOTHING` (authorized iff the id equals `OWNER_USER_ID`), then
`INSERT INTO user_settings (user_id) ... ON CONFLICT DO NOTHING`. -/
def upsertUser (db : Db) (uid : Int) (username : Option String) (ownerId : Int) : Db :=
  let users' :=
    if db.users.any (fun u => u.user_id == uid) then db.users
    else db.users ++ [{ user_id := uid, username := username,
                        is_authorized := uid == ownerId }]
  let settings' :=
    if db.user_settings.any (fun s => s.user_id == uid) then db.user_settings
    else db.user_settings ++ [defaultSettings uid]
  { db with users := users', user_settings := settings' }

/-- The user-visible responses of the `/start` handler. -/
inductive StartReply
  | rejection
  | welcome
deriving DecidableEq, Repr

/-- The `bot.start` handler: upsert the user (and default settings)
first, then check authorization and reply the rejection or the welcome
menu. -/
def startHandler (db : Db) (uid : Int) (username : Option String) (ownerId : Int) :
    Db × StartReply :=
  let db1 := upsertUser db uid username ownerId
  if !isAuthorizedDb db1 uid then (db1, StartReply.rejection)
  else (db1, StartReply.welcome)

/-- The `publish_<id>` inline action handler: it performs no
authorization check and invokes `publishPost(postId, ctx.from.id)`. -/
def publishAction (notionPub githubPub : SinkPub) (nowMs : Int) (db : Db)
    (uid postId : Int) : Db × List SinkCall :=
  publishPost notionPub githubPub nowMs db postId uid

/-- The `reject_<id>` inline action handler: it performs no
authorization check and runs
`DELETE FROM blog_posts WHERE id = $1 AND user_id = $2`. -/
def rejectAction (db : Db) (uid postId : Int) : Db :=
  { db with
    blog_posts := db.blog_posts.filter (fun p =>
      !(p.id == postId && p.user_id == uid)) }

/-- The per-user pending-input states (`type UserState` /
`userStates` map). -/
inductive UserState
  | set_notion_db
  | set_github_repo
  | set_combine_time
  | edit_post (postId : Int)
deriving DecidableEq, Repr

/-- Test of the regular expression `^[^/]+/[^/]+$` on the trimmed input
of the `set_github_repo` state: exactly one slash, with non-empty text
on each side. -/
def repoFormatOk (s : String) : Bool :=
  let parts := splitChar '/' s.toList
  parts.length == 2 && parts.all (fun p => !p.isEmpty)

/-- Value of a hexadecimal digit character. -/
def hexDigitVal (c : Char) : Option Nat :=
  if c.isDigit then some (c.toNat - 48)
  else if 'a' ≤ c ∧ c ≤ 'f' then some (c.toNat - 87)
  else if 'A' ≤ c ∧ c ≤ 'F' then some (c.toNat - 55)
  else none

/-- Value of a digit character in the given radix (≤ 16). -/
def radixDigitVal (radix : Nat) (c : Char) : Option Nat :=
  (hexDigitVal c).bind (fun d => if d < radix then some d else none)

/-- Non-empty digit string in the given radix, read as a natural
number (`none` on an empty string or a digit out of range). -/
def parseRadixNat (radix : Nat) (l : List Char) : Option Nat :=
  if l.isEmpty then none
  else
    l.foldl
      (fun acc c => acc.bind (fun n => (radixDigitVal radix c).map (fun d => n * radix + d)))
      (some 0)

/-- Leading decimal-digit span of a character list and the remainder. -/
def takeDigits (l : List Char) : List Char × List Char :=
  (l.takeWhile Char.isDigit, l.dropWhile Char.isDigit)

/-- Decimal value of a digit span. -/
def digitsVal (l : List Char) : Nat :=
  l.foldl (fun n c => n * 10 + (c.toNat - 48)) 0

/-- The exponent tail of a JS decimal literal: optional sign, then at
least one digit. `(m, k)` is the exact value `m * 10^k` accumulated so
far; the exponent digits shift `k`. -/
def parseExpDigits (m : Nat) (k : Int) (l : List Char) : Option (Nat × Int) :=
  match l with
  | '+' :: r => (parseDigitsNat r).map (fun e => (m, k + (e : Int)))
  | '-' :: r => (parseDigitsNat r).map (fun e => (m, k - (e : Int)))
  | r => (parseDigitsNat r).map (fun e => (m, k + (e : Int)))

/-- After the mantissa of a JS decimal literal: either the end of the
string or an `e`/`E` exponent part. -/
def parseExpPart (m : Nat) (k : Int) (l : List Char) : Option (Nat × Int) :=
  match l with
  | [] => some (m, k)
  | 'e' :: r => parseExpDigits m k r
  | 'E' :: r => parseExpDigits m k r
  | _ => none

/-- A JS unsigned decimal literal `digits [. digits?] [exp]` or
`. digits [exp]`, as the exact value `m * 10^k` (`none` when the text
is not of this form). -/
def parseDecMantissa (l : List Char) : Option (Nat × Int) :=
  let ipr := takeDigits l
  match ipr.2 with
  | '.' :: r2 =>
    let fpr := takeDigits r2
    if ipr.1.isEmpty ∧ fpr.1.isEmpty then none
    else
      parseExpPart (digitsVal ipr.1 * 10 ^ fpr.1.length + digitsVal fpr.1)
        (-(fpr.1.length : Int)) fpr.2
  | _ =>
    if ipr.1.isEmpty then none
    else parseExpPart (digitsVal ipr.1) 0 ipr.2

/-- Whether the exact value `m * 10^k` is an integer, and which one. -/
def mantissaToInt? (m : Nat) (k : Int) : Option Int :=
  if 0 ≤ k then some ((m : Int) * 10 ^ k.toNat)
  else if m % 10 ^ (-k).toNat == 0 then some ((m / 10 ^ (-k).toNat : Nat) : Int)
  else none

/-- A JS unsigned decimal numeric string restricted to the integer
test: `Infinity` and non-integral values give `none`. -/
def parseUnsignedDec (l : List Char) : Option Int :=
  if l = ['I', 'n', 'f', 'i', 'n', 'i', 't', 'y'] then none
  else (parseDecMantissa l).bind (fun p => mantissaToInt? p.1 p.2)

/-- A JS decimal numeric string with an optional leading sign. -/
def parseSignedDec (l : List Char) : Option Int :=
  match l with
  | '+' :: r => parseUnsignedDec r
  | '-' :: r => (parseUnsignedDec r).map (fun v => -v)
  | r => parseUnsignedDec r

/-- `Number(text)` followed by the `Number.isInteger(minutes)` test in
the `set_combine_time` state: `some v` when the (already trimmed) text
evaluates to the finite integer `v`, and `none` when it evaluates to
`NaN`, an infinity, or a non-integral number — all of which fail the
handler's check identically. The grammar of the JS
`StringNumericLiteral` is followed: the empty string is `0`; the
`0x`/`0X`/`0o`/`0O`/`0b`/`0B` radix prefixes are accepted only without
a sign; decimal literals may carry a fraction and an `e`/`E` exponent,
evaluated exactly (so `"1.0"`, `"+7"`, `"0x10"`, `"2e1"` are the
integers 1, 7, 16, 20 and `"1.5"`, `"1e-1"` are not integers);
`Infinity` is recognised and rejected by the integer test.
Floating-point rounding at magnitudes beyond exact double range is not
modelled. -/
def parseMinutes (s : String) : Option Int :=
  match s.toList with
  | [] => some 0
  | '0' :: 'x' :: r => (parseRadixNat 16 r).map (fun n => (n : Int))
  | '0' :: 'X' :: r => (parseRadixNat 16 r).map (fun n => (n : Int))
  | '0' :: 'o' :: r => (parseRadixNat 8 r).map (fun n => (n : Int))
  | '0' :: 'O' :: r => (parseRadixNat 8 r).map (fun n => (n : Int))
  | '0' :: 'b' :: r => (parseRadixNat 2 r).map (fun n => (n : Int))
  | '0' :: 'B' :: r => (parseRadixNat 2 r).map (fun n => (n : Int))
  | l => parseSignedDec l

/-- The private-chat text handler while a `userStates` entry is set:
dispatch on the state, validate where the code validates (returning
early — keeping the state and the store — on failure), apply the single
corresponding `UPDATE`, and clear the state at the end of the switch.
Returns the new store and the user's state after the message. -/
def handleStateText (db : Db) (uid : Int) (st : UserState) (raw : String) :
    Db × Option UserState :=
  let text := jsTrim raw
  match st with
  | UserState.set_notion_db =>
    ({ db with
       user_settings := db.user_settings.map (fun s =>
         if s.user_id == uid then { s with notion_database_id := some text } else s) },
     none)
  | UserState.set_github_repo =>
    if !repoFormatOk text then (db, some UserState.set_github_repo)
    else
      ({ db with
         user_settings := db.user_settings.map (fun s =>
           if s.user_id == uid then { s with github_repo := some text } else s) },
       none)
  | UserState.set_combine_time =>
    match parseMinutes text with
    | none => (db, some UserState.set_combine_time)
    | some minutes =>
      if minutes ≤ 0 then (db, some UserState.set_combine_time)
      else
        ({ db with
           user_settings := db.user_settings.map (fun s =>
             if s.user_id == uid then { s with combine_threshold_minutes := minutes }
             else s) },
         none)
  | UserState.edit_post postId =>
    ({ db with
       blog_posts := db.blog_posts.map (fun p =>
         if p.id == postId && p.user_id == uid then { p with content := text } else p) },
     none)

/-- The validation outcome of `handleStateText` for a given state and
raw input: `false` exactly on the two early-return branches. -/
def stateInputOk (st : UserState) (raw : String) : Bool :=
  match st with
  | UserState.set_github_repo => repoFormatOk (jsTrim raw)
  | UserState.set_combine_time =>
    match parseMinutes (jsTrim raw) with
    | none => false
    | some minutes => decide (0 < minutes)
  | _ => true

/-- A row used in the concrete window-filter scenario. -/
def windowRow (i ts : Int) : PendingMessageRow :=
  { id := i
    source_id := 1
    message_id := i
    text := some "m"
    media_urls := []
    sender := some "s"
    timestamp := ts
    is_processed := false }

/-- A sink oracle that always succeeds, returning the id `"NEW"`. -/
def okPub : SinkPub := fun _ _ _ _ => some "NEW"

/-- An empty store. -/
def dbEmpty : Db :=
  { users := [], user_settings := [], monitored_sources := [],
    pending_messages := [], blog_posts := [] }

/-- A store holding one draft owned by user 1 that already has a Notion
page id recorded but no GitHub commit sha, with both sinks configured
for user 1 (the partial-success situation of the publish claims). -/
def dbPartial : Db :=
  { users := []
    user_settings := [{ user_id := 1, auto_publish := false,
                        combine_threshold_minutes := 5,
                        notion_database_id := some "ndb",
                        github_repo := some "o/r" }]
    monitored_sources := []
    pending_messages := []
    blog_posts := [{ id := 1, user_id := 1, title := "T", content := "C",
                     media_urls := [], source_messages := [],
                     notion_page_id := some "EXISTING",
                     github_commit_sha := none,
                     status := PostStatus.failed,
                     published_at := none }] }

/-- A store holding one pending draft owned by user 2 and nothing else. -/
def dbOtherOwner : Db :=
  { users := []
    user_settings := []
    monitored_sources := []
    pending_messages := []
    blog_posts := [{ id := 1, user_id := 2, title := "T", content := "C",
                     media_urls := [], source_messages := [],
                     notion_page_id := none, github_commit_sha := none,
                     status := PostStatus.pending, published_at := none }] }

/-- A store with two owners (1 and 2), one active source each, and one
unprocessed queued message per source, both at timestamp 0. -/
def dbTwoOwners : Db :=
  { users := []
    user_settings := [defaultSettings 1, defaultSettings 2]
    monitored_sources :=
      [{ id := 1, user_id := 1, chat_id := 10, topic_id := none, is_active := true },
       { id := 2, user_id := 2, chat_id := 20, topic_id := none, is_active := true }]
    pending_messages :=
      [{ id := 1, source_id := 1, message_id := 1, text := some "a", media_urls := [],
         sender := some "s", timestamp := 0, is_processed := false },
       { id := 2, source_id := 2, message_id := 2, text := some "b", media_urls := [],
         sender := some "s", timestamp := 0, is_processed := false }]
    blog_posts := [] }

/-- A classifier oracle that throws on any batch containing a message
from source 1 and classifies every other batch as not informational. -/
def analyzerFailsOnSource1 : Analyzer := fun batch =>
  if batch.any (fun m => m.source_id == 1) then none
  else some { shouldCombine := false, isInformational := false,
              suggestedTitle := "", combinedContent := "" }

/-- A deactivated monitored source owned by user 1. -/
def inactiveSource : MonitoredSource :=
  { id := 1, user_id := 1, chat_id := 10, topic_id := none, is_active := false }

/-- An unprocessed queued message on `inactiveSource`. -/
def msgOnInactive : PendingMessageRow :=
  { id := 1, source_id := 1, message_id := 1, text := some "x", media_urls := [],
    sender := some "s", timestamp := 0, is_processed := false }

/-- A store whose only monitored source is deactivated yet still has an
unprocessed queued message. -/
def dbInactive : Db :=
  { users := []
    user_settings := [defaultSettings 1]
    monitored_sources := [inactiveSource]
    pending_messages := [msgOnInactive]
    blog_posts := [] }

/-- A `JSON.parse` oracle defined only on the empty object `\x7b\x7d`,
where it yields an object with every field absent. -/
def parseEmptyObj : String → Option PartialAnalysisResult := fun s =>
  if s = "\x7b\x7d" then some {} else none

/-- A store with one owner (user 1, default settings, no sinks
configured, `auto_publish = false`), one active source, and one
unprocessed queued message at timestamp 0. -/
def dbOneOwner : Db :=
  { users := []
    user_settings := [defaultSettings 1]
    monitored_sources :=
      [{ id := 1, user_id := 1, chat_id := 10, topic_id := none, is_active := true }]
    pending_messages :=
      [{ id := 1, source_id := 1, message_id := 1, text := some "hello", media_urls := [],
         sender := some "alice", timestamp := 0, is_processed := false }]
    blog_posts := [] }

/-- A classifier oracle that marks every batch informational with the
combined body `"BODY"`. -/
def analyzerInformational : Analyzer := fun _ =>
  some { shouldCombine := true, isInformational := true,
         suggestedTitle := "Title", combinedContent := "BODY" }

/-- A store with a single settings row for user 1. -/
def dbOneSettings : Db :=
  { users := []
    user_settings := [defaultSettings 1]
    monitored_sources := []
    pending_messages := []
    blog_posts := [] }

theorem map_eq_self_of {α : Type} (l : List α) (f : α → α) (h : ∀ a ∈ l, f a = a) :
    l.map f = l := by
  induction l with
  | nil => rfl
  | cons x xs ih =>
    simp only [List.map_cons, h x (by simp)]
    rw [ih (fun a ha => h a (by simp [ha]))]

theorem store_key_present (table : List PendingMessageRow) (s n : Int)
    (c : IncomingContent)
    (h : table.any (keyMatches s c.message_id) = true) :
    storePendingMessage table s n c = table := by
  by_cases hd : c.text = "" ∧ c.media_urls = []
  · simp [storePendingMessage, hd]
  · simp [storePendingMessage, hd, h]

/-- C7: queue insertion is idempotent on the natural key
`(sourceId, messageId)`: when the key is absent and the first insert is
not content-dropped, the first insert creates exactly one row with that
key and a second insert of the same key changes nothing. -/
theorem queue_insert_idempotent (table : List PendingMessageRow)
    (s n₁ n₂ : Int) (c c' : IncomingContent)
    (hkey : c'.message_id = c.message_id)
    (habsent : table.any (keyMatches s c.message_id) = false)
    (hstore : ¬(c.text = "" ∧ c.media_urls = [])) :
    storePendingMessage (storePendingMessage table s n₁ c) s n₂ c'
        = storePendingMessage table s n₁ c
      ∧ ((storePendingMessage table s n₁ c).filter
          (keyMatches s c.message_id)).length = 1 := by
  have h1 : storePendingMessage table s n₁ c
      = table ++
        [{ id := n₁
           source_id := s
           message_id := c.message_id
           text := if c.text = "" then none else some c.text
           media_urls := c.media_urls
           sender := some c.sender
           timestamp := c.timestamp
           is_processed := false }] := by
    simp [storePendingMessage, hstore, habsent]
  constructor
  · refine store_key_present _ s n₂ c' ?_
    rw [hkey, h1]
    simp [List.any_append, keyMatches]
  · rw [h1, List.filter_append]
    have hnil : table.filter (keyMatches s c.message_id) = [] :=
      List.filter_eq_nil_iff.mpr (List.any_eq_false.mp habsent)
    rw [hnil]
    simp [keyMatches]

/-- C7 witness: a concrete double insert of the pair `(1, 9)` into an
empty table. -/
theorem queue_insert_idempotent_witness :
    storePendingMessage
        (storePendingMessage [] 1 1
          { message_id := 9, text := "hi", media_urls := [], sender := "s", timestamp := 0 })
        1 2
        { message_id := 9, text := "bye", media_urls := [], sender := "s2", timestamp := 5 }
      = storePendingMessage [] 1 1
          { message_id := 9, text := "hi", media_urls := [], sender := "s", timestamp := 0 }
      ∧ ((storePendingMessage [] 1 1
            { message_id := 9, text := "hi", media_urls := [], sender := "s", timestamp := 0 }).filter
          (keyMatches 1 9)).length = 1 :=
  queue_insert_idempotent [] 1 1 2
    { message_id := 9, text := "hi", media_urls := [], sender := "s", timestamp := 0 }
    { message_id := 9, text := "bye", media_urls := [], sender := "s2", timestamp := 5 }
    (by decide) (by decide) (by decide)

/-- C8: the batcher's window filter keeps exactly the rows with
`timestamp ≥ now − windowMinutes`; in particular, with
`windowMinutes = 5` and rows at `now−1m`, `now−6m`, `now−10m`, exactly
the first row survives. -/
theorem window_filter_keeps_recent (rows : List PendingMessageRow)
    (nowMs w : Int) (m : PendingMessageRow) :
    (m ∈ recentFilter rows nowMs w
        ↔ m ∈ rows ∧ nowMs - w * 60 * 1000 ≤ m.timestamp)
      ∧ recentFilter
          [windowRow 1 (nowMs - 60000), windowRow 2 (nowMs - 360000),
           windowRow 3 (nowMs - 600000)] nowMs 5
        = [windowRow 1 (nowMs - 60000)] := by
  constructor
  · simp [recentFilter, List.mem_filter]
  · simp only [recentFilter, windowRow, List.filter_cons, List.filter_nil]
    rw [if_pos (by simp; omega), if_neg (by simp; omega), if_neg (by simp; omega)]

theorem mem_insertByTs {m a : PendingMessageRow} :
    ∀ {l : List PendingMessageRow}, a ∈ insertByTs m l ↔ a = m ∨ a ∈ l := by
  intro l
  induction l with
  | nil => simp [insertByTs]
  | cons x xs ih =>
    by_cases h : m.timestamp ≤ x.timestamp
    · simp [insertByTs, h]
    · simp only [insertByTs, if_neg h, List.mem_cons, ih]
      tauto

theorem mem_sortByTs {a : PendingMessageRow} :
    ∀ {l : List PendingMessageRow}, a ∈ sortByTs l ↔ a ∈ l := by
  intro l
  induction l with
  | nil => simp [sortByTs]
  | cons x xs ih => simp [sortByTs, mem_insertByTs, ih]

theorem pairwise_insertByTs {m : PendingMessageRow} :
    ∀ {l : List PendingMessageRow},
      l.Pairwise (fun a b => a.timestamp ≤ b.timestamp) →
      (insertByTs m l).Pairwise (fun a b => a.timestamp ≤ b.timestamp) := by
  intro l
  induction l with
  | nil => intro _; simp [insertByTs]
  | cons x xs ih =>
    intro h
    rcases List.pairwise_cons.mp h with ⟨hx, hxs⟩
    by_cases hle : m.timestamp ≤ x.timestamp
    · rw [insertByTs, if_pos hle]
      refine List.pairwise_cons.mpr ⟨?_, h⟩
      intro b hb
      rcases List.mem_cons.mp hb with rfl | hb
      · exact hle
      · exact le_trans hle (hx b hb)
    · rw [insertByTs, if_neg hle]
      refine List.pairwise_cons.mpr ⟨?_, ih hxs⟩
      intro b hb
      rcases mem_insertByTs.mp hb with rfl | hb
      · omega
      · exact hx b hb

theorem pairwise_sortByTs :
    ∀ (l : List PendingMessageRow),
      (sortByTs l).Pairwise (fun a b => a.timestamp ≤ b.timestamp) := by
  intro l
  induction l with
  | nil => simp [sortByTs]
  | cons x xs ih => exact pairwise_insertByTs ih

/-- C3 counterexample: a store whose only monitored source is
deactivated still contributes its unprocessed queued message to the
owner's fetched batch, so the claim that messages of a
deactivated source are never included is false. -/
theorem batch_includes_inactive_source_cex :
    dbInactive.monitored_sources = [inactiveSource]
      ∧ inactiveSource.is_active = false
      ∧ msgOnInactive.source_id = inactiveSource.id
      ∧ fetchUnprocessed dbInactive 1 = [msgOnInactive] := by
  refine ⟨rfl, rfl, rfl, ?_⟩
  decide

/-- C3 amended: the fetched batch contains exactly the unprocessed
queued messages whose source belongs to the owner — whether or not the
source is still active (the query has no `is_active` condition) — and it
is ordered by timestamp ascending. -/
theorem batch_membership_and_order (db : Db) (uid : Int) (pm : PendingMessageRow) :
    (pm ∈ fetchUnprocessed db uid
        ↔ pm ∈ db.pending_messages ∧ pm.is_processed = false
            ∧ ∃ ms ∈ db.monitored_sources, ms.id = pm.source_id ∧ ms.user_id = uid)
      ∧ (fetchUnprocessed db uid).Pairwise (fun a b => a.timestamp ≤ b.timestamp) := by
  constructor
  · simp only [fetchUnprocessed, mem_sortByTs, List.mem_filter, Bool.and_eq_true,
      List.any_eq_true, beq_iff_eq, Bool.not_eq_true']
  · exact pairwise_sortByTs _

/-- C5 counterexample: the response `"\x7b\x7d"` contains a JSON object
missing both required boolean fields, yet `analyzeMessages` returns a
result (with the fields coerced to `false`) instead of failing. -/
theorem classify_missing_fields_cex :
    extractJsonSpan "\x7b\x7d" = some "\x7b\x7d"
      ∧ parseEmptyObj "\x7b\x7d" = some {}
      ∧ analyzeParse parseEmptyObj "\x7b\x7d"
          = Except.ok { shouldCombine := false, isInformational := false,
                        suggestedTitle := "", combinedContent := "" } := by
  refine ⟨by decide, by decide, by rfl⟩

/-- C5 amended: `analyzeMessages` fails when the free-text response
holds no brace-delimited JSON object, or when `JSON.parse` throws on
the extracted span; but a successfully parsed object always yields a
result — absent (or falsy) required boolean fields are silently coerced
to `false`, never reported as an error. -/
theorem classify_format_error_amended
    (parse : String → Option PartialAnalysisResult) (s span : String)
    (p : PartialAnalysisResult) :
    (extractJsonSpan s = none →
        analyzeParse parse s = Except.error ClassifyError.noJsonObject)
      ∧ (extractJsonSpan s = some span → parse span = none →
        analyzeParse parse s = Except.error ClassifyError.jsonParseError)
      ∧ (extractJsonSpan s = some span → parse span = some p →
        analyzeParse parse s = Except.ok (coerceAnalysis p)) := by
  refine ⟨?_, ?_, ?_⟩
  · intro h
    simp [analyzeParse, h]
  · intro h1 h2
    simp [analyzeParse, h1, h2]
  · intro h1 h2
    simp [analyzeParse, h1, h2]

/-- C5 amended witness: a response without braces fails with the
no-JSON-object error. -/
theorem classify_format_error_amended_witness :
    analyzeParse parseEmptyObj "no json here" = Except.error ClassifyError.noJsonObject :=
  (classify_format_error_amended parseEmptyObj "no json here" "" {}).1 (by decide)

/-- C2 counterexample: with two owners enumerated as `[1, 2]`, a
classification failure on owner 1's batch leaves the whole store
untouched — owner 2 is not processed in that tick, although processing
owner 2 alone would have marked its row processed. -/
theorem tick_abort_cex :
    distinctInts (dbTwoOwners.user_settings.map (fun s => s.user_id)) = [1, 2]
      ∧ processMessagesTick analyzerFailsOnSource1 okPub okPub 0 dbTwoOwners = dbTwoOwners
      ∧ (processOwner analyzerFailsOnSource1 okPub okPub 0 dbTwoOwners 2).map
          (fun d => d.pending_messages.map (fun m => m.is_processed)) = some [false, true] := by
  refine ⟨by decide, by decide, by decide⟩

/-- C2 amended: a classification failure in one owner's iteration aborts
the remainder of the tick — the store is returned exactly as it stood at
the failure, so the failing owner's unprocessed rows stay unprocessed
and the owners still to be enumerated are not processed until a later
tick (owners already processed earlier in the tick keep their updates). -/
theorem tick_abort_amended (analyze : Analyzer) (nPub gPub : SinkPub)
    (nowMs : Int) (db : Db) (uid : Int) (rest : List Int)
    (h : processOwner analyze nPub gPub nowMs db uid = none) :
    processOwnersGo analyze nPub gPub nowMs (uid :: rest) db = db := by
  simp [processOwnersGo, h]

/-- C2 amended witness: the two-owner scenario, where classification
fails on the first owner. -/
theorem tick_abort_amended_witness :
    processOwnersGo analyzerFailsOnSource1 okPub okPub 0 [1, 2] dbTwoOwners = dbTwoOwners :=
  tick_abort_amended analyzerFailsOnSource1 okPub okPub 0 dbTwoOwners 1 [2] (by decide)

/-- C1 counterexample: on a draft whose Notion page id is already
recorded (and GitHub sha is not), re-invoking publish calls the Notion
sink again — and overwrites the recorded id with the fresh one. -/
theorem publish_per_sink_skip_cex :
    dbPartial.blog_posts.map (fun p => p.notion_page_id) = [some "EXISTING"]
      ∧ dbPartial.blog_posts.map (fun p => p.github_commit_sha) = [none]
      ∧ (publishPost okPub okPub 0 dbPartial 1 1).2.map (fun c => c.sink)
          = [Sink.notion, Sink.github]
      ∧ (publishPost okPub okPub 0 dbPartial 1 1).1.blog_posts.map
          (fun p => p.notion_page_id) = [some "NEW"] := by
  refine ⟨by decide, by decide, by decide, by decide⟩

/-- C1 amended: publish performs no per-sink skip. Whenever the draft
loads for `(postId, uid)`, the publish operation of every configured
sink is invoked — the recorded sink ids are never consulted — and on
full success both recorded ids are overwritten with the fresh results
(a partial failure records no id at all, since ids are written only in
the single success update). -/
theorem publish_calls_all_configured_sinks (nPub gPub : SinkPub) (nowMs : Int)
    (db : Db) (postId uid : Int) (post : BlogPostRow) (nd gr nid : String)
    (hfind : (setPostStatus db postId PostStatus.publishing).blog_posts.find?
        (fun p => p.id == postId && p.user_id == uid) = some post)
    (hnd : (getUserSettings db uid).notion_database_id = some nd)
    (hgr : (getUserSettings db uid).github_repo = some gr)
    (hok : nPub nd post.title post.content post.media_urls = some nid) :
    (publishPost nPub gPub nowMs db postId uid).2.map (fun c => c.sink)
      = [Sink.notion, Sink.github] := by
  have hset : getUserSettings (setPostStatus db postId PostStatus.publishing) uid
      = getUserSettings db uid := rfl
  simp only [publishPost, hfind, hset, hnd, hgr, runSink, hok]
  cases hg : gPub gr post.title post.content post.media_urls <;> simp [hg]

/-- C1 amended witness: the partial-success store, with both sinks
configured and succeeding. -/
theorem publish_calls_all_configured_sinks_witness :
    (publishPost okPub okPub 0 dbPartial 1 1).2.map (fun c => c.sink)
      = [Sink.notion, Sink.github] :=
  publish_calls_all_configured_sinks okPub okPub 0 dbPartial 1 1
    { id := 1, user_id := 1, title := "T", content := "C", media_urls := [],
      source_messages := [], notion_page_id := some "EXISTING",
      github_commit_sha := none, status := PostStatus.publishing,
      published_at := none }
    "ndb" "o/r" "NEW" (by decide) (by decide) (by decide) (by decide)

theorem publishPost_no_post_id (nPub gPub : SinkPub) (nowMs : Int) (db : Db)
    (postId uid : Int)
    (h : db.blog_posts.all (fun p => !(p.id == postId)) = true) :
    publishPost nPub gPub nowMs db postId uid = (db, []) := by
  have hall := List.all_eq_true.mp h
  have hstat : setPostStatus db postId PostStatus.publishing = db := by
    simp only [setPostStatus]
    have : db.blog_posts.map (fun p =>
        if p.id == postId then { p with status := PostStatus.publishing } else p)
        = db.blog_posts := by
      apply map_eq_self_of
      intro p hp
      have := hall p hp
      simp only [Bool.not_eq_true'] at this
      simp [this]
    rw [this]
  have hfind : (setPostStatus db postId PostStatus.publishing).blog_posts.find?
      (fun p => p.id == postId && p.user_id == uid) = none := by
    rw [hstat]
    apply List.find?_eq_none.mpr
    intro p hp
    have := hall p hp
    simp only [Bool.not_eq_true'] at this
    simp [this]
  rw [hstat] at hfind
  simp only [publishPost, hstat, hfind]

theorem publishPost_no_owned_post (nPub gPub : SinkPub) (nowMs : Int) (db : Db)
    (postId uid : Int)
    (h : db.blog_posts.all (fun p => !(p.id == postId && p.user_id == uid)) = true) :
    publishPost nPub gPub nowMs db postId uid
      = (setPostStatus db postId PostStatus.publishing, []) := by
  have hall := List.all_eq_true.mp h
  have hfind : (setPostStatus db postId PostStatus.publishing).blog_posts.find?
      (fun p => p.id == postId && p.user_id == uid) = none := by
    apply List.find?_eq_none.mpr
    intro p hp
    simp only [setPostStatus, List.mem_map] at hp
    obtain ⟨q, hq, rfl⟩ := hp
    have hfq := hall q hq
    simp only [Bool.not_eq_true'] at hfq
    by_cases hid : q.id == postId
    · simp only [hid, if_true]
      simp only [hid, Bool.true_and] at hfq ⊢
      simp [hfq]
    · simp [hid]
  simp only [publishPost, hfind]

/-- C4 counterexample: `publishPost(1, 1)` on a store whose only draft
with id 1 is owned by user 2 is not a no-op — the draft's status is
flipped to `publishing` by the unconditional first update (no sink is
called). -/
theorem publish_missing_draft_cex :
    dbOtherOwner.blog_posts.map (fun p => (p.user_id, p.status))
        = [(2, PostStatus.pending)]
      ∧ (publishPost okPub okPub 0 dbOtherOwner 1 1).1.blog_posts.map
          (fun p => p.status) = [PostStatus.publishing]
      ∧ (publishPost okPub okPub 0 dbOtherOwner 1 1).2 = [] := by
  refine ⟨by decide, by decide, by decide⟩

/-- C4 amended: when no `blog_posts` row with the given id exists at
all, publish is a complete no-op with no sink calls; when rows with
that id exist but none is owned by the caller, publish makes no sink
calls and changes nothing except setting the status of the rows with
that id to `publishing` (the unconditional first update runs before the
ownership check). -/
theorem publish_missing_draft_amended (nPub gPub : SinkPub) (nowMs : Int)
    (db : Db) (postId uid : Int) :
    (db.blog_posts.all (fun p => !(p.id == postId)) = true →
        publishPost nPub gPub nowMs db postId uid = (db, []))
      ∧ (db.blog_posts.all (fun p => !(p.id == postId && p.user_id == uid)) = true →
        publishPost nPub gPub nowMs db postId uid
          = (setPostStatus db postId PostStatus.publishing, [])) :=
  ⟨publishPost_no_post_id nPub gPub nowMs db postId uid,
   publishPost_no_owned_post nPub gPub nowMs db postId uid⟩

/-- C4 amended witness: the empty store (no-op) and the
other-owner store (status flip only). -/
theorem publish_missing_draft_amended_witness :
    publishPost okPub okPub 0 dbEmpty 1 1 = (dbEmpty, [])
      ∧ publishPost okPub okPub 0 dbOtherOwner 1 1
          = (setPostStatus dbOtherOwner 1 PostStatus.publishing, []) :=
  ⟨(publish_missing_draft_amended okPub okPub 0 dbEmpty 1 1).1 (by decide),
   (publish_missing_draft_amended okPub okPub 0 dbOtherOwner 1 1).2 (by decide)⟩

/-- C6 counterexample: an unauthorized `/start` does reply a rejection
but first inserts `users` and `user_settings` rows (state mutation);
and the `publish_` action checks no authorization at all — an
unauthorized caller flips a foreign draft's status to `publishing`. -/
theorem unauthorized_actions_cex :
    isAuthorizedDb (startHandler dbEmpty 5 none 1).1 5 = false
      ∧ (startHandler dbEmpty 5 none 1).2 = StartReply.rejection
      ∧ (startHandler dbEmpty 5 none 1).1 ≠ dbEmpty
      ∧ isAuthorizedDb dbOtherOwner 5 = false
      ∧ (publishAction okPub okPub 0 dbOtherOwner 5 1).1.blog_posts.map
          (fun p => p.status) = [PostStatus.publishing] := by
  refine ⟨by decide, by decide, by decide, by decide, by decide⟩

/-- C6 amended: unauthorized users are not uniformly short-circuited
without mutation. `/start` replies its rejection but only after
upserting the caller's `users` and default `user_settings` rows; the
`publish_` inline action performs no authorization check and sets the
status of any existing draft with the given id to `publishing` (making
no sink calls when the caller owns no such draft); the `reject_` inline
action performs no check either, though its owner-scoped `DELETE`
mutates nothing for a caller owning no matching draft. -/
theorem unauthorized_actions_amended (db : Db) (uid : Int)
    (username : Option String) (ownerId : Int) (nPub gPub : SinkPub)
    (nowMs : Int) (postId : Int) :
    (isAuthorizedDb (upsertUser db uid username ownerId) uid = false →
        startHandler db uid username ownerId
          = (upsertUser db uid username ownerId, StartReply.rejection))
      ∧ (db.blog_posts.all (fun p => !(p.id == postId && p.user_id == uid)) = true →
        publishAction nPub gPub nowMs db uid postId
          = (setPostStatus db postId PostStatus.publishing, []))
      ∧ (db.blog_posts.all (fun p => !(p.id == postId && p.user_id == uid)) = true →
        rejectAction db uid postId = db) := by
  refine ⟨?_, ?_, ?_⟩
  · intro h
    simp [startHandler, h]
  · intro h
    exact publishPost_no_owned_post nPub gPub nowMs db postId uid h
  · intro h
    have hfil : db.blog_posts.filter (fun p => !(p.id == postId && p.user_id == uid))
        = db.blog_posts :=
      List.filter_eq_self.mpr (List.all_eq_true.mp h)
    unfold rejectAction
    rw [hfil]

/-- C6 amended witness: the fresh unauthorized user and the
foreign-draft reject. -/
theorem unauthorized_actions_amended_witness :
    startHandler dbEmpty 5 none 1 = (upsertUser dbEmpty 5 none 1, StartReply.rejection)
      ∧ rejectAction dbOtherOwner 5 1 = dbOtherOwner :=
  ⟨(unauthorized_actions_amended dbEmpty 5 none 1 okPub okPub 0 1).1 (by decide),
   (unauthorized_actions_amended dbOtherOwner 5 none 1 okPub okPub 0 1).2.2 (by decide)⟩

theorem map_eq_map_of {α β : Type} (l : List α) (f g : α → β)
    (h : ∀ a ∈ l, f a = g a) : l.map f = l.map g := by
  induction l with
  | nil => rfl
  | cons x xs ih =>
    simp only [List.map_cons, h x (by simp)]
    rw [ih (fun a ha => h a (by simp [ha]))]

theorem contents_setPostStatus (db : Db) (pid : Int) (st : PostStatus) :
    (setPostStatus db pid st).blog_posts.map (fun p => p.content)
      = db.blog_posts.map (fun p => p.content) := by
  simp only [setPostStatus, List.map_map]
  apply map_eq_map_of
  intro p _
  by_cases h : p.id == pid <;> simp [Function.comp, h]

theorem contents_finalizePost (db : Db) (pid : Int) (nid gid : Option String)
    (nowMs : Int) :
    (finalizePost db pid nid gid nowMs).blog_posts.map (fun p => p.content)
      = db.blog_posts.map (fun p => p.content) := by
  simp only [finalizePost, List.map_map]
  apply map_eq_map_of
  intro p _
  by_cases h : p.id == pid <;> simp [Function.comp, h]

theorem contents_publishPost (nPub gPub : SinkPub) (nowMs : Int) (db : Db)
    (postId uid : Int) :
    (publishPost nPub gPub nowMs db postId uid).1.blog_posts.map (fun p => p.content)
      = db.blog_posts.map (fun p => p.content) := by
  simp only [publishPost]
  split
  · exact contents_setPostStatus db postId PostStatus.publishing
  · split
    · rw [contents_setPostStatus, contents_setPostStatus]
    · split
      · rw [contents_setPostStatus, contents_setPostStatus]
      · rw [contents_finalizePost, contents_setPostStatus]

/-- C9: an informational verdict creates exactly one draft, and its
body is the classifier's `combinedContent` when non-empty, or else the
deterministic sender/timestamp/text concatenation fallback. -/
theorem informational_draft_body (analyze : Analyzer) (nPub gPub : SinkPub)
    (nowMs : Int) (db : Db) (uid : Int) (a : AnalysisResult)
    (hrows : (fetchUnprocessed db uid).isEmpty = false)
    (hrecent : (recentFilter (fetchUnprocessed db uid) nowMs
        (getUserSettings db uid).combine_threshold_minutes).isEmpty = false)
    (hana : analyze (recentFilter (fetchUnprocessed db uid) nowMs
        (getUserSettings db uid).combine_threshold_minutes) = some a)
    (hinf : a.isInformational = true) :
    ∃ db', processOwner analyze nPub gPub nowMs db uid = some db'
      ∧ db'.blog_posts.map (fun p => p.content)
          = db.blog_posts.map (fun p => p.content)
            ++ [if a.combinedContent = ""
                then fallbackContent (recentFilter (fetchUnprocessed db uid) nowMs
                    (getUserSettings db uid).combine_threshold_minutes)
                else a.combinedContent] := by
  simp only [processOwner, hrows, hrecent, hana, hinf, Bool.not_true,
    Bool.false_eq_true, if_false]
  by_cases hauto : (getUserSettings db uid).auto_publish
  · simp only [hauto, if_true]
    refine ⟨_, rfl, ?_⟩
    rw [contents_publishPost]
    simp [markProcessed]
  · simp only [hauto, if_false, Bool.false_eq_true]
    refine ⟨_, rfl, ?_⟩
    simp [markProcessed]

/-- C9 witness: a one-owner store with one recent message, classified
informational with the non-empty combined body `"BODY"`. -/
theorem informational_draft_body_witness :
    ∃ db', processOwner analyzerInformational okPub okPub 0 dbOneOwner 1 = some db'
      ∧ db'.blog_posts.map (fun p => p.content)
          = dbOneOwner.blog_posts.map (fun p => p.content)
            ++ [if ({ shouldCombine := true, isInformational := true,
                      suggestedTitle := "Title",
                      combinedContent := "BODY" } : AnalysisResult).combinedContent = ""
                then fallbackContent (recentFilter (fetchUnprocessed dbOneOwner 1) 0
                    (getUserSettings dbOneOwner 1).combine_threshold_minutes)
                else "BODY"] :=
  informational_draft_body analyzerInformational okPub okPub 0 dbOneOwner 1
    { shouldCombine := true, isInformational := true,
      suggestedTitle := "Title", combinedContent := "BODY" }
    (by decide) (by decide) (by decide) (by decide)

theorem find?_map_keyed (l : List UserSettingsRow) (uid : Int)
    (f : UserSettingsRow → UserSettingsRow)
    (hf : ∀ s, (f s).user_id = s.user_id) :
    (l.map (fun s => if s.user_id == uid then f s else s)).find?
        (fun s => s.user_id == uid)
      = (l.find? (fun s => s.user_id == uid)).map f := by
  induction l with
  | nil => rfl
  | cons x xs ih =>
    by_cases h : x.user_id == uid
    · simp only [List.map_cons, h, if_true]
      rw [@List.find?_cons_of_pos _ (fun s => s.user_id == uid) (f x) _
          (by simp [hf, beq_iff_eq.mp h]),
        @List.find?_cons_of_pos _ (fun s => s.user_id == uid) x xs h]
      rfl
    · simp only [List.map_cons, h, if_false, Bool.false_eq_true]
      rw [List.find?_cons_of_neg _ (by simp [h]), List.find?_cons_of_neg _ (by simp [h]),
        ih]

/-- C10: the pending-input state machine consumes its state exactly
once per handled input — on a valid input the single corresponding
setting (or post) field is updated and the state is cleared; on a
failed validation (GitHub repo not `owner/repo`, or combine-time not a
positive integer) nothing in the store changes and the state is
retained; tables other than the one targeted are never touched. -/
theorem pending_state_consumed_once (db : Db) (uid : Int) (st : UserState)
    (raw : String) :
    (stateInputOk st raw = true → (handleStateText db uid st raw).2 = none)
      ∧ (stateInputOk st raw = false →
        handleStateText db uid st raw = (db, some st))
      ∧ (repoFormatOk (jsTrim raw) = true →
        db.user_settings.any (fun s => s.user_id == uid) = true →
        getUserSettings (handleStateText db uid UserState.set_github_repo raw).1 uid
          = { getUserSettings db uid with github_repo := some (jsTrim raw) })
      ∧ (∀ minutes : Int, parseMinutes (jsTrim raw) = some minutes → 0 < minutes →
        db.user_settings.any (fun s => s.user_id == uid) = true →
        getUserSettings (handleStateText db uid UserState.set_combine_time raw).1 uid
          = { getUserSettings db uid with combine_threshold_minutes := minutes })
      ∧ (db.user_settings.any (fun s => s.user_id == uid) = true →
        getUserSettings (handleStateText db uid UserState.set_notion_db raw).1 uid
          = { getUserSettings db uid with notion_database_id := some (jsTrim raw) })
      ∧ (∀ pid : Int, ∀ p ∈ db.blog_posts,
          ((p.id == pid && p.user_id == uid) = true →
            { p with content := jsTrim raw }
              ∈ (handleStateText db uid (UserState.edit_post pid) raw).1.blog_posts)
          ∧ ((p.id == pid && p.user_id == uid) = false →
            p ∈ (handleStateText db uid (UserState.edit_post pid) raw).1.blog_posts))
      ∧ ((handleStateText db uid st raw).1.monitored_sources = db.monitored_sources
          ∧ (handleStateText db uid st raw).1.pending_messages = db.pending_messages
          ∧ (handleStateText db uid st raw).1.users = db.users) := by
  refine ⟨?_, ?_, ?_, ?_, ?_, ?_, ?_⟩
  · intro h
    cases st with
    | set_notion_db => rfl
    | set_github_repo =>
      simp only [stateInputOk] at h
      simp [handleStateText, h]
    | set_combine_time =>
      simp only [stateInputOk] at h
      cases hm : parseMinutes (jsTrim raw) with
      | none => rw [hm] at h; cases h
      | some m =>
        rw [hm] at h
        have hpos : 0 < m := of_decide_eq_true h
        simp [handleStateText, hm, show ¬ m ≤ 0 by omega]
    | edit_post pid => rfl
  · intro h
    cases st with
    | set_notion_db => cases h
    | set_github_repo =>
      simp only [stateInputOk] at h
      simp [handleStateText, h]
    | set_combine_time =>
      simp only [stateInputOk] at h
      cases hm : parseMinutes (jsTrim raw) with
      | none => simp [handleStateText, hm]
      | some m =>
        rw [hm] at h
        have hle : m ≤ 0 := by
          have := of_decide_eq_false h
          omega
        simp [handleStateText, hm, hle]
    | edit_post pid => cases h
  · intro hok hany
    obtain ⟨s₀, hs₀, hps₀⟩ := List.any_eq_true.mp hany
    have hfind : db.user_settings.find? (fun s => s.user_id == uid) ≠ none := by
      intro hnone
      exact absurd hps₀ (List.find?_eq_none.mp hnone s₀ hs₀)
    cases hf0 : db.user_settings.find? (fun s => s.user_id == uid) with
    | none => exact absurd hf0 hfind
    | some sFound =>
      simp only [handleStateText, hok, Bool.not_true, Bool.false_eq_true, if_false]
      simp only [getUserSettings, find?_map_keyed db.user_settings uid
        (fun s => { s with github_repo := some (jsTrim raw) }) (fun _ => rfl), hf0]
      rfl
  · intro m hm hpos hany
    obtain ⟨s₀, hs₀, hps₀⟩ := List.any_eq_true.mp hany
    have hfind : db.user_settings.find? (fun s => s.user_id == uid) ≠ none := by
      intro hnone
      exact absurd hps₀ (List.find?_eq_none.mp hnone s₀ hs₀)
    cases hf0 : db.user_settings.find? (fun s => s.user_id == uid) with
    | none => exact absurd hf0 hfind
    | some sFound =>
      simp only [handleStateText, hm, show ¬ m ≤ 0 by omega, if_false]
      simp only [getUserSettings, find?_map_keyed db.user_settings uid
        (fun s => { s with combine_threshold_minutes := m }) (fun _ => rfl), hf0]
      rfl
  · intro hany
    obtain ⟨s₀, hs₀, hps₀⟩ := List.any_eq_true.mp hany
    have hfind : db.user_settings.find? (fun s => s.user_id == uid) ≠ none := by
      intro hnone
      exact absurd hps₀ (List.find?_eq_none.mp hnone s₀ hs₀)
    cases hf0 : db.user_settings.find? (fun s => s.user_id == uid) with
    | none => exact absurd hf0 hfind
    | some sFound =>
      simp only [handleStateText]
      simp only [getUserSettings, find?_map_keyed db.user_settings uid
        (fun s => { s with notion_database_id := some (jsTrim raw) }) (fun _ => rfl), hf0]
      rfl
  · intro pid p hp
    constructor
    · intro h
      have hmem := List.mem_map_of_mem
        (fun p => if p.id == pid && p.user_id == uid
                  then { p with content := jsTrim raw } else p) hp
      simp [h] at hmem
      simpa [handleStateText] using hmem
    · intro h
      have hmem := List.mem_map_of_mem
        (fun p => if p.id == pid && p.user_id == uid
                  then { p with content := jsTrim raw } else p) hp
      simp [h] at hmem
      simpa [handleStateText] using hmem
  · cases st with
    | set_notion_db => exact ⟨rfl, rfl, rfl⟩
    | set_github_repo =>
      by_cases h : repoFormatOk (jsTrim raw) <;> simp [handleStateText, h]
    | set_combine_time =>
      cases hm : parseMinutes (jsTrim raw) with
      | none => simp [handleStateText, hm]
      | some m =>
        by_cases hle : m ≤ 0 <;> simp [handleStateText, hm, hle]
    | edit_post pid => exact ⟨rfl, rfl, rfl⟩

/-- C10 witness: an invalid repo input retains the state and leaves the
store unchanged; a valid combine-time input (`"1.0"`, a JS integer)
updates the single setting field; a notion-database input updates that
setting; an edit-post input updates the owned post's content. -/
theorem pending_state_consumed_once_witness :
    handleStateText dbOneSettings 1 UserState.set_github_repo "not a repo"
        = (dbOneSettings, some UserState.set_github_repo)
      ∧ getUserSettings (handleStateText dbOneSettings 1 UserState.set_combine_time "1.0").1 1
          = { getUserSettings dbOneSettings 1 with combine_threshold_minutes := 1 }
      ∧ getUserSettings (handleStateText dbOneSettings 1 UserState.set_notion_db "mydb").1 1
          = { getUserSettings dbOneSettings 1 with notion_database_id := some (jsTrim "mydb") }
      ∧ ({ id := 1, user_id := 2, title := "T", content := jsTrim "new text",
           media_urls := [], source_messages := [], notion_page_id := none,
           github_commit_sha := none, status := PostStatus.pending,
           published_at := none } : BlogPostRow)
          ∈ (handleStateText dbOtherOwner 2 (UserState.edit_post 1) "new text").1.blog_posts :=
  ⟨(pending_state_consumed_once dbOneSettings 1 UserState.set_github_repo
      "not a repo").2.1 (by decide),
   (pending_state_consumed_once dbOneSettings 1 UserState.set_combine_time
      "1.0").2.2.2.1 1 (by decide) (by decide) (by decide),
   (pending_state_consumed_once dbOneSettings 1 UserState.set_notion_db
      "mydb").2.2.2.2.1 (by decide),
   ((pending_state_consumed_once dbOtherOwner 2 (UserState.edit_post 1)
      "new text").2.2.2.2.2.1 1
      { id := 1, user_id := 2, title := "T", content := "C", media_urls := [],
        source_messages := [], notion_page_id := none, github_commit_sha := none,
        status := PostStatus.pending, published_at := none }
      (by decide)).1 (by decide)⟩

end WikiBot
